import Mathlib

/-!
Nether Engine: run loop and window-procedure dispatch.

A shallow embedding of `nether::core::Application` (`Application.cpp`, `Application.hpp`),
`Uint2` (`Types.hpp`) and `fatalError` (`Utils.hpp`).

The Win32 platform and the `Engine` class are external to the embedded files.  They appear
as explicit oracles (`Platform`, `Engine`) whose answers the embedded code consumes, and every
call the code makes on them is appended, in program order, to a trace of `Call`s.

Machine integers: pixel sizes and message words are `Nat`/`Int`; the conversions the source
performs (`static_cast<uint32_t>`, `static_cast<int32_t>`, the binary32 product with `0.8f`)
are spelled out as functions below.
-/

namespace nether.core

/-! ## Platform constants (Windows SDK values) -/

def WM_CREATE : Nat := 0x0001
def WM_DESTROY : Nat := 0x0002
def WM_SIZE : Nat := 0x0005
def WM_QUIT : Nat := 0x0012
def WM_KEYDOWN : Nat := 0x0100
def WM_KEYUP : Nat := 0x0101
def VK_ESCAPE : Nat := 0x1B

/-! ## Data types -/

/-- Types.hpp: `struct Uint2 { uint32_t x{}; uint32_t y{}; }`. -/
structure Uint2 where
  x : Nat
  y : Nat
deriving DecidableEq, Repr

/-- Win32 `RECT` (four `LONG` fields). -/
structure RECT where
  left : Int
  top : Int
  right : Int
  bottom : Int
deriving DecidableEq, Repr

/-- Win32 `MSG`, restricted to the fields the program reads.  `MSG message{}` is all zero. -/
structure MSG where
  hwnd : Nat
  message : Nat
  wParam : Nat
  lParam : Nat
deriving DecidableEq, Repr

/-- Every call the embedded code makes on the engine or on the platform that the properties
below speak about.  `Update` records the nanosecond count `c` of
`(mCurrentFrameTime - mPreviousFrameTime).count()`; the argument the engine receives is
`static_cast<float>(c * 1e-9)`.  `Drained` records a message handed out by `PeekMessageW`. -/
inductive Call where
  | RegisterClassExW
  | MessageBoxW
  | CreateWindowExW (x y width height : Int) (lpParam : Nat)
  | Init (windowHandle : Nat) (clientDimensions : Uint2)
  | ShowWindow
  | Drained (msg : MSG)
  | Update (deltaNanos : Int)
  | Render
  | OnKeyAction (keycode : Nat) (isKeyDown : Bool)
  | Resize (clientDimensions : Uint2)
  | SetWindowLongPtr (value : Nat)
  | DestroyWindow
  | PostQuitMessage (exitCode : Int)
  | DefWindowProc (message wParam lParam : Nat)
deriving DecidableEq, Repr

/-- Calls into the engine object (`engine->...`). -/
def Call.isEngineCall : Call → Bool
  | .Init _ _ => true
  | .Update _ => true
  | .Render => true
  | .OnKeyAction _ _ => true
  | .Resize _ => true
  | _ => false

/-- The per-frame entry points `engine->Update` and `engine->Render`. -/
def Call.isTick : Call → Bool
  | .Update _ => true
  | .Render => true
  | _ => false

/-- The engine entry points `Init`, `Update`, `Render`. -/
def Call.isLifecycle : Call → Bool
  | .Init _ _ => true
  | .Update _ => true
  | .Render => true
  | _ => false

/-- The calls `Application::WindowProc` can make. -/
def Call.isWndCall : Call → Bool
  | .OnKeyAction _ _ => true
  | .Resize _ => true
  | .SetWindowLongPtr _ => true
  | .DestroyWindow => true
  | .PostQuitMessage _ => true
  | .DefWindowProc _ _ _ => true
  | _ => false

/-- The call `engine->Update`. -/
def Call.isUpdate : Call → Bool
  | .Update _ => true
  | _ => false

/-! ## Integer conversions -/

/-- The conversion `static_cast<uint32_t>(v)` of a signed integer. -/
def toUint32 (v : Int) : Nat := (v % 4294967296).toNat

/-- The conversion `static_cast<int32_t>(w)` of an unsigned word (two's complement). -/
def toInt32 (w : Nat) : Int :=
  if w % 4294967296 < 2147483648 then ((w % 4294967296 : Nat) : Int)
  else ((w % 4294967296 : Nat) : Int) - 4294967296

/-- The conversion `(WPARAM)nExitCode` that `PostQuitMessage(int)` stores in the quit message
(sign extension to a 64-bit word). -/
def wParamOfExitCode (exitCode : Int) : Nat := (exitCode % 18446744073709551616).toNat

/-- Exact rescaling `count * 1e-9` of a nanosecond count to seconds (before the rounding of
`static_cast<float>`). -/
def secondsOfNanos (count : Int) : ℚ := (count : ℚ) * (1 / 1000000000)

/-! ## The window procedure -/

/-- What the platform answers to the queries `Application::WindowProc` makes while it handles
one notification. -/
structure WndEnv where
  /-- Result of `GetWindowLongPtr(windowHandle, GWLP_USERDATA)`: the engine bound to the
  window, `0` when none is bound. -/
  userData : Nat
  /-- Result of `ImGui_ImplWin32_WndProcHandler(windowHandle, message, wParam, lParam)`. -/
  imguiResult : Int
  /-- The field `pCreateStruct->lpCreateParams` behind `lParam` (read for `WM_CREATE`). -/
  lpCreateParams : Nat
  /-- The rectangle `GetClientRect` writes. -/
  clientRect : RECT
  /-- Result of `DefWindowProc(windowHandle, message, wParam, lParam)`. -/
  defResult : Int
deriving Repr

/-- Application.cpp, `Application::WindowProc`: the returned `LRESULT` and the calls made, in
order.  `return true` is the `LRESULT` 1. -/
def Application.WindowProc (env : WndEnv) (message wParam lParam : Nat) : Int × List Call :=
  let engine := env.userData
  if env.imguiResult ≠ 0 then
    (1, [])
  else if message = WM_CREATE then
    (0, [Call.SetWindowLongPtr env.lpCreateParams])
  else if message = WM_KEYDOWN then
    (0, (if wParam = VK_ESCAPE then [Call.DestroyWindow] else [])
          ++ (if engine ≠ 0 then [Call.OnKeyAction wParam true] else []))
  else if message = WM_KEYUP then
    (0, if engine ≠ 0 then [Call.OnKeyAction wParam false] else [])
  else if message = WM_SIZE then
    (0, if engine ≠ 0 then
          [Call.Resize ⟨toUint32 env.clientRect.right, toUint32 env.clientRect.bottom⟩]
        else [])
  else if message = WM_DESTROY then
    (0, [Call.PostQuitMessage 0])
  else
    (env.defResult, [Call.DefWindowProc message wParam lParam])

/-- Win32 `GetClientRect`: client coordinates, so the upper-left corner is `(0, 0)` and
`right`, `bottom` are the width and height of the live client area. -/
def GetClientRect (width height : Nat) : RECT := ⟨0, 0, width, height⟩

/-! ## Binary32 arithmetic of `monitorWidth * 0.8f`

The product is computed in binary32 (round to nearest, ties to even, 24-bit significand).
The operands here are a non-negative integer and the constant `0.8f`, whose exact value is
`13421773 / 2^24`, so every intermediate value is a natural number of units `2^-24`. -/

/-- Number of low bits that do not fit in a 24-bit significand: the least `d` (up to `fuel`)
with `n / 2^d < 2^24`. -/
def excessBits : Nat → Nat → Nat
  | 0, _ => 0
  | fuel + 1, n => if n < 16777216 then 0 else excessBits fuel (n / 2) + 1

/-- Round `n` to a multiple of `2^d`, to nearest, ties to the even multiple. -/
def roundToEven (d n : Nat) : Nat :=
  if 2 * (n % 2 ^ d) < 2 ^ d then n / 2 ^ d * 2 ^ d
  else if 2 ^ d < 2 * (n % 2 ^ d) then (n / 2 ^ d + 1) * 2 ^ d
  else (n / 2 ^ d + n / 2 ^ d % 2) * 2 ^ d

/-- Round `n` to 24 significant bits (the binary32 significand). -/
def roundSig24 (n : Nat) : Nat := roundToEven (excessBits 64 n) n

/-- The binary32 value of `w * 0.8f` for an `int32_t` `w ≥ 0`, in units of `2^-24`: `w` is
converted to binary32, multiplied by `0.8f = 13421773 * 2^-24`, and the product is rounded. -/
def mulPoint8f (w : Nat) : Nat := roundSig24 (roundSig24 w * 13421773)

/-- The conversion `static_cast<uint32_t>(w * 0.8f)`: truncation of the binary32 product. -/
def scaledExtent (w : Nat) : Nat := mulPoint8f w / 16777216

/-! ## Window sizing and placement -/

/-- Decoration insets of a `WS_OVERLAPPEDWINDOW` window without menu: how far the outer frame
extends beyond the client area on each side. -/
structure Frame where
  left : Nat
  top : Nat
  right : Nat
  bottom : Nat
deriving DecidableEq, Repr

/-- Win32 `AdjustWindowRect(&rect, WS_OVERLAPPEDWINDOW, FALSE)`: the window rectangle whose
client area is `rect`. -/
def AdjustWindowRect (f : Frame) (r : RECT) : RECT :=
  ⟨r.left - f.left, r.top - f.top, r.right + f.right, r.bottom + f.bottom⟩

/-- The values `Application::Run` computes between `GetSystemMetrics` and
`CreateWindowExW`. -/
structure Layout where
  clientDimensions : Uint2
  windowWidth : Int
  windowHeight : Int
  windowXPos : Int
  windowYPos : Int
deriving DecidableEq, Repr

/-- Application.cpp lines 41-64 of `Application::Run`. -/
def Application.layout (f : Frame) (monitorWidth monitorHeight : Nat) : Layout :=
  let clientDimensions : Uint2 := ⟨scaledExtent monitorWidth, scaledExtent monitorHeight⟩
  let windowRect : RECT :=
    AdjustWindowRect f ⟨0, 0, (clientDimensions.x : Int), (clientDimensions.y : Int)⟩
  let windowWidth : Int := windowRect.right - windowRect.left
  let windowHeight : Int := windowRect.bottom - windowRect.top
  let windowXPos : Int := max 0 (Int.tdiv ((monitorWidth : Int) - windowWidth) 2)
  let windowYPos : Int := max 0 (Int.tdiv ((monitorHeight : Int) - windowHeight) 2)
  ⟨clientDimensions, windowWidth, windowHeight, windowXPos, windowYPos⟩

/-! ## The platform and the engine as oracles -/

/-- What a C++ call can raise: an exception derived from `std::exception`, or anything else. -/
inductive Thrown where
  | stdException
  | other
deriving DecidableEq, Repr

/-- The Win32 environment of one run. -/
structure Platform where
  /-- Result of `RegisterClassExW` (an `ATOM`, 0 on failure). -/
  registerClassResult : Nat
  /-- Result of `GetSystemMetrics(SM_CXSCREEN)`. -/
  monitorWidth : Nat
  /-- Result of `GetSystemMetrics(SM_CYSCREEN)`. -/
  monitorHeight : Nat
  /-- Decoration insets applied by `AdjustWindowRect`. -/
  frame : Frame
  /-- Result of `CreateWindowExW` (0 on failure). -/
  createdHandle : Nat
  /-- Notifications `CreateWindowExW` sends to the window procedure before it returns, as
  `(message, wParam, lParam)`. -/
  createMessages : List (Nat × Nat × Nat)
  /-- Notifications `ShowWindow` sends to the window procedure before it returns. -/
  showMessages : List (Nat × Nat × Nat)
  /-- Messages posted to the thread queue, in order. -/
  posted : List MSG
  /-- Result of the overlay handler at the `n`-th window-procedure call, for
  `(message, wParam, lParam)`. -/
  imgui : Nat → Nat → Nat → Nat → Int
  /-- Live client area `(width, height)` at the `n`-th window-procedure call. -/
  clientArea : Nat → Nat × Nat
  /-- Result of `DefWindowProc` for `(message, wParam, lParam)`. -/
  defWindowProc : Nat → Nat → Nat → Int
  /-- The `i`-th reading of `mClock.now()` inside the loop, as the nanosecond count since the
  clock epoch (`time_since_epoch().count()`). -/
  now : Nat → Nat

/-- The engine as seen by `Application`: its address and whether each entry point returns
(`none`) or raises. -/
structure Engine where
  /-- The pointer value `engine`. -/
  ptr : Nat
  Init : Option Thrown
  /-- Outcome of `Update` in loop iteration `i` (counted from 0). -/
  Update : Nat → Option Thrown
  /-- Outcome of `Render` in loop iteration `i` (counted from 0). -/
  Render : Nat → Option Thrown

/-- The platform state the program can influence or observe. -/
structure Sys where
  trace : List Call
  /-- The `GWLP_USERDATA` word of the window. -/
  userData : Nat
  /-- The window exists and receives notifications. -/
  alive : Bool
  /-- Posted messages not yet retrieved. -/
  queue : List MSG
  /-- A quit request made by `PostQuitMessage`, with its exit code. -/
  quit : Option Int
  /-- Number of window-procedure calls so far. -/
  calls : Nat
deriving DecidableEq, Repr

def Sys.log (s : Sys) (c : Call) : Sys := { s with trace := s.trace ++ [c] }

/-- The answers the platform gives the window procedure for its next call. -/
def Platform.wndEnv (P : Platform) (E : Engine) (s : Sys) (message wParam lParam : Nat) :
    WndEnv :=
  { userData := s.userData
    imguiResult := P.imgui s.calls message wParam lParam
    lpCreateParams := E.ptr
    clientRect := GetClientRect (P.clientArea s.calls).1 (P.clientArea s.calls).2
    defResult := P.defWindowProc message wParam lParam }

/-- Effect on the platform of a call made by the window procedure while the window is being
destroyed (`DestroyWindow` on such a window fails and does nothing). -/
def applyInner (s : Sys) (c : Call) : Sys :=
  match c with
  | .SetWindowLongPtr v => { s.log c with userData := v }
  | .PostQuitMessage code => { s.log c with quit := some code }
  | _ => s.log c

/-- Win32 `DestroyWindow` sends `WM_DESTROY` to the window procedure before it returns. -/
def sendDestroy (P : Platform) (E : Engine) (s : Sys) : Sys :=
  (Application.WindowProc (P.wndEnv E s WM_DESTROY 0 0) WM_DESTROY 0 0).2.foldl applyInner
    { s with calls := s.calls + 1 }

/-- Effect on the platform of a call made by the window procedure. -/
def applyEffect (P : Platform) (E : Engine) (s : Sys) (c : Call) : Sys :=
  match c with
  | .DestroyWindow =>
    if s.alive then { sendDestroy P E (s.log c) with alive := false } else s.log c
  | _ => applyInner s c

/-- The platform delivers one notification to `Application::WindowProc` (nothing is delivered
to a destroyed window). -/
def sendMessage (P : Platform) (E : Engine) (s : Sys) (message wParam lParam : Nat) : Sys :=
  if s.alive then
    (Application.WindowProc (P.wndEnv E s message wParam lParam) message wParam lParam).2.foldl
      (applyEffect P E) { s with calls := s.calls + 1 }
  else s

/-- Deliver a list of notifications in order. -/
def sendAll (P : Platform) (E : Engine) (s : Sys) (ms : List (Nat × Nat × Nat)) : Sys :=
  ms.foldl (fun acc m => sendMessage P E acc m.1 m.2.1 m.2.2) s

/-- Win32 `PeekMessageW(&message, nullptr, 0, 0, PM_REMOVE)`: the oldest posted message if
any; otherwise, if a quit was requested, the `WM_QUIT` message carrying its exit code;
otherwise nothing. -/
def PeekMessageW (s : Sys) : Option MSG × Sys :=
  match s.queue with
  | m :: rest => (some m, { s with queue := rest })
  | [] =>
    match s.quit with
    | some code => (some ⟨0, WM_QUIT, wParamOfExitCode code, 0⟩, { s with quit := none })
    | none => (none, s)

/-- Win32 `DispatchMessageW`: a message addressed to the window goes to its window procedure;
a thread message (`hwnd` 0, such as `WM_QUIT`) goes nowhere. -/
def DispatchMessageW (P : Platform) (E : Engine) (s : Sys) (m : MSG) : Sys :=
  if m.hwnd = P.createdHandle ∧ m.hwnd ≠ 0 then sendMessage P E s m.message m.wParam m.lParam
  else s

/-! ## Application::Run -/

/-- Utils.hpp, `fatalError`: shows the blocking message box, then throws
`std::runtime_error`. -/
def fatalError (trace : List Call) : Except (Thrown × List Call) Unit :=
  .error (Thrown.stdException, trace ++ [Call.MessageBoxW])

/-- Modelled from the spec: `utils::ErrorMessage` of `Common/Utils.hpp`, which is not among the
embedded files.  The specification says a setup failure is "reported synchronously to the user
via a blocking notification, then escalated as a fatal condition that unwinds the run"; this is
what `fatalError` of `Utils.hpp` does. -/
def ErrorMessage (trace : List Call) : Except (Thrown × List Call) Unit :=
  fatalError trace

/-- Variables of `Application::Run` that live across loop iterations. -/
structure LoopState where
  sys : Sys
  /-- The local `MSG message`. -/
  message : MSG
  /-- The member `mPreviousFrameTime`, as a nanosecond count since the clock epoch. -/
  mPreviousFrameTime : Int
  /-- Number of completed iterations. -/
  frame : Nat
deriving DecidableEq, Repr

/-- Outcome of `Application::Run` observed after a bounded number of loop iterations. -/
inductive RunResult where
  /-- The call of `Run` returned `status`. -/
  | returned (status : Int) (trace : List Call)
  /-- An exception not derived from `std::exception` left `Run`. -/
  | uncaught (trace : List Call)
  /-- The loop is at its head after the allowed number of iterations and goes on. -/
  | running (st : LoopState)
deriving DecidableEq, Repr

def RunResult.trace : RunResult → List Call
  | .returned _ tr => tr
  | .uncaught tr => tr
  | .running st => st.sys.trace

/-- Application.cpp lines 21-79: everything in the `try` block before the message loop.
The members `mCurrentFrameTime`, `mPreviousFrameTime` keep their default-constructed value
(the clock epoch, count 0) until the loop assigns them. -/
def Application.setup (P : Platform) (E : Engine) : Except (Thrown × List Call) LoopState := do
  let s0 : Sys := ⟨[Call.RegisterClassExW], 0, false, P.posted, none, 0⟩
  if P.registerClassResult = 0 then
    ErrorMessage s0.trace
  let lay := Application.layout P.frame P.monitorWidth P.monitorHeight
  let s1 : Sys :=
    { s0.log (Call.CreateWindowExW lay.windowXPos lay.windowYPos lay.windowWidth
        lay.windowHeight E.ptr) with alive := true }
  let s2 := sendAll P E s1 P.createMessages
  let mWindowHandle := P.createdHandle
  if mWindowHandle = 0 then
    ErrorMessage s2.trace
  let s3 := s2.log (Call.Init mWindowHandle lay.clientDimensions)
  match E.Init with
  | some t => .error (t, s3.trace)
  | none =>
    let s4 := sendAll P E (s3.log Call.ShowWindow) P.showMessages
    pure ⟨s4, ⟨0, 0, 0, 0⟩, 0, 0⟩

/-- Application.cpp lines 89-93: `if (PeekMessageW(...)) { TranslateMessage; DispatchMessageW }`.
Returns the platform state and the content of the local `message` afterwards.
`TranslateMessage` has no effect on the modelled state. -/
def Application.pumpMessage (P : Platform) (E : Engine) (s : Sys) (message : MSG) : Sys × MSG :=
  match PeekMessageW s with
  | (some m, s1) => (DispatchMessageW P E (s1.log (Call.Drained m)) m, m)
  | (none, s1) => (s1, message)

/-- Application.cpp lines 85-96: one iteration of the message loop. -/
def Application.loopBody (P : Platform) (E : Engine) (st : LoopState) :
    Except (Thrown × List Call) LoopState :=
  let mCurrentFrameTime : Int := (P.now st.frame : Int)
  let deltaNanos : Int := mCurrentFrameTime - st.mPreviousFrameTime
  let mPreviousFrameTime := mCurrentFrameTime
  let pumped := Application.pumpMessage P E st.sys st.message
  let s2 := pumped.1.log (Call.Update deltaNanos)
  match E.Update st.frame with
  | some t => .error (t, s2.trace)
  | none =>
    let s3 := s2.log Call.Render
    match E.Render st.frame with
    | some t => .error (t, s3.trace)
    | none => .ok ⟨s3, pumped.2, mPreviousFrameTime, st.frame + 1⟩

/-- Application.cpp lines 101-105: `catch (const std::exception exception) { return -1; }`. -/
def Application.catchHandler : Thrown × List Call → RunResult
  | (Thrown.stdException, tr) => .returned (-1) tr
  | (Thrown.other, tr) => .uncaught tr

/-- Application.cpp lines 83-99: `while (message.message != WM_QUIT) { ... }` followed by
`return static_cast<int32_t>(message.wParam)`, for at most `fuel` iterations. -/
def Application.messageLoop (P : Platform) (E : Engine) : Nat → LoopState → RunResult
  | 0, st =>
    if st.message.message ≠ WM_QUIT then .running st
    else .returned (toInt32 st.message.wParam) st.sys.trace
  | fuel + 1, st =>
    if st.message.message ≠ WM_QUIT then
      match Application.loopBody P E st with
      | .ok st1 => Application.messageLoop P E fuel st1
      | .error e => Application.catchHandler e
    else .returned (toInt32 st.message.wParam) st.sys.trace

/-- Application.cpp, `Application::Run`, observed for at most `fuel` loop iterations. -/
def Application.Run (P : Platform) (E : Engine) (fuel : Nat) : RunResult :=
  match Application.setup P E with
  | .error e => Application.catchHandler e
  | .ok st => Application.messageLoop P E fuel st

/-! ## Reference values used to state the properties -/

/-- The nanosecond count between the clock reading of iteration `i` and the reading before it;
for the first iteration the "reading before" is the clock epoch. -/
def frameDelta (now : Nat → Nat) (i : Nat) : Int :=
  (now i : Int) - (if i = 0 then 0 else (now (i - 1) : Int))

/-- The alternating sequence Update, Render, ... of `n` iterations. -/
def tickTrace (now : Nat → Nat) (n : Nat) : List Call :=
  (List.range n).flatMap (fun i => [Call.Update (frameDelta now i), Call.Render])

/-- The call records that `PeekMessageW` handed out the quit signal. -/
def Call.isQuitDrain : Call → Bool
  | .Drained m => decide (m.message = WM_QUIT)
  | _ => false

/-- The Update/Render calls made after the first drain of a quit signal. -/
def ticksAfterQuit (tr : List Call) : List Call :=
  (tr.dropWhile (fun c => !c.isQuitDrain)).filter Call.isTick

/-- A platform with a 1000x800 display, an 8/31/8/8 frame, window handle 1 that stores the
engine on `WM_CREATE`, nothing posted, and a clock that reads 5 s, 5.016 s, 5.032 s, ... -/
def demoPlatform : Platform :=
  { registerClassResult := 1
    monitorWidth := 1000
    monitorHeight := 800
    frame := ⟨8, 31, 8, 8⟩
    createdHandle := 1
    createMessages := [(WM_CREATE, 0, 0)]
    showMessages := []
    posted := []
    imgui := fun _ _ _ _ => 0
    clientArea := fun _ => (800, 640)
    defWindowProc := fun _ _ _ => 0
    now := fun i => 5000000000 + 16000000 * i }

/-- An engine at address 7 whose entry points always return. -/
def demoEngine : Engine := ⟨7, none, fun _ => none, fun _ => none⟩

/-- The demo platform with one posted notification: the Escape key pressed in the window. -/
def escapePlatform : Platform :=
  { demoPlatform with posted := [⟨1, WM_KEYDOWN, VK_ESCAPE, 0⟩] }

/-- The calls of the run on `escapePlatform`, in order. -/
def escapeTrace : List Call :=
  [Call.RegisterClassExW, Call.CreateWindowExW 92 60 816 679 7, Call.SetWindowLongPtr 7,
    Call.Init 1 ⟨800, 640⟩, Call.ShowWindow,
    Call.Drained ⟨1, WM_KEYDOWN, VK_ESCAPE, 0⟩, Call.DestroyWindow, Call.PostQuitMessage 0,
    Call.OnKeyAction VK_ESCAPE true, Call.Update 5000000000, Call.Render,
    Call.Drained ⟨0, WM_QUIT, 0, 0⟩, Call.Update 16000000, Call.Render]

/-- The calls made before the message loop starts: setup calls and window-procedure calls. -/
def Call.isSetupCall : Call → Bool
  | .RegisterClassExW => true
  | .MessageBoxW => true
  | .CreateWindowExW _ _ _ _ _ => true
  | .Init _ _ => true
  | .ShowWindow => true
  | c => c.isWndCall

/-- The state `s2` continues `s1` by calls of the window procedure only. -/
def Sys.Extends (s1 s2 : Sys) : Prop :=
  ∃ ext, s2.trace = s1.trace ++ ext ∧ ∀ c ∈ ext, c.isWndCall = true

/-! ## Binary32 scaling: agreement with integer arithmetic -/

theorem Sys.Extends.refl (s : Sys) : s.Extends s := ⟨[], by simp, by simp⟩

theorem Sys.Extends.trans {s1 s2 s3 : Sys} (h12 : s1.Extends s2) (h23 : s2.Extends s3) :
    s1.Extends s3 := by
  obtain ⟨e1, h1, g1⟩ := h12
  obtain ⟨e2, h2, g2⟩ := h23
  refine ⟨e1 ++ e2, by rw [h2, h1, List.append_assoc], ?_⟩
  intro c hc
  rcases List.mem_append.1 hc with h | h
  · exact g1 c h
  · exact g2 c h

theorem WindowProc_isWndCall (env : WndEnv) (message wParam lParam : Nat) :
    ∀ c ∈ (Application.WindowProc env message wParam lParam).2, c.isWndCall = true := by
  intro c hc
  unfold Application.WindowProc at hc
  simp only at hc
  split_ifs at hc <;> simp at hc <;>
    first
    | (subst hc; rfl)
    | (rcases hc with h | h <;> subst h <;> rfl)

theorem applyInner_trace (s : Sys) (c : Call) : (applyInner s c).trace = s.trace ++ [c] := by
  cases c <;> rfl

theorem foldl_applyInner_trace (cs : List Call) :
    ∀ s : Sys, (cs.foldl applyInner s).trace = s.trace ++ cs := by
  induction cs with
  | nil => intro s; simp
  | cons c cs ih => intro s; simp [List.foldl, ih, applyInner_trace]

theorem sendDestroy_extends (P : Platform) (E : Engine) (s : Sys) :
    s.Extends (sendDestroy P E s) := by
  unfold sendDestroy
  refine ⟨_, foldl_applyInner_trace _ _, ?_⟩
  exact WindowProc_isWndCall _ _ _ _

theorem applyEffect_extends (P : Platform) (E : Engine) (s : Sys) (c : Call)
    (hc : c.isWndCall = true) : s.Extends (applyEffect P E s c) := by
  have hlog : s.Extends (s.log c) := ⟨[c], rfl, by simpa using hc⟩
  have hinner : s.Extends (applyInner s c) :=
    ⟨[c], applyInner_trace s c, by simpa using hc⟩
  cases c <;> try exact hinner
  unfold applyEffect
  split_ifs
  · obtain ⟨ext, h1, h2⟩ := (hlog.trans (sendDestroy_extends P E (s.log Call.DestroyWindow)))
    exact ⟨ext, h1, h2⟩
  · exact hlog

theorem foldl_applyEffect_extends (P : Platform) (E : Engine) (cs : List Call)
    (hcs : ∀ c ∈ cs, c.isWndCall = true) :
    ∀ s : Sys, s.Extends (cs.foldl (applyEffect P E) s) := by
  induction cs with
  | nil => intro s; exact Sys.Extends.refl s
  | cons c cs ih =>
    intro s
    simp only [List.foldl]
    exact (applyEffect_extends P E s c (hcs c (by simp))).trans
      (ih (fun c1 h1 => hcs c1 (by simp [h1])) _)

theorem sendMessage_extends (P : Platform) (E : Engine) (s : Sys) (message wParam lParam : Nat) :
    s.Extends (sendMessage P E s message wParam lParam) := by
  unfold sendMessage
  split_ifs
  · obtain ⟨ext, h1, h2⟩ := foldl_applyEffect_extends P E _
      (WindowProc_isWndCall (P.wndEnv E s message wParam lParam) message wParam lParam)
      { s with calls := s.calls + 1 }
    exact ⟨ext, h1, h2⟩
  · exact Sys.Extends.refl s

theorem sendAll_extends (P : Platform) (E : Engine) (ms : List (Nat × Nat × Nat)) :
    ∀ s : Sys, s.Extends (sendAll P E s ms) := by
  induction ms with
  | nil => intro s; exact Sys.Extends.refl s
  | cons m ms ih =>
    intro s
    unfold sendAll
    simp only [List.foldl]
    exact (sendMessage_extends P E s m.1 m.2.1 m.2.2).trans (ih _)

theorem DispatchMessageW_extends (P : Platform) (E : Engine) (s : Sys) (m : MSG) :
    s.Extends (DispatchMessageW P E s m) := by
  unfold DispatchMessageW
  split_ifs
  · exact sendMessage_extends P E s _ _ _
  · exact Sys.Extends.refl s

theorem PeekMessageW_trace (s : Sys) : (PeekMessageW s).2.trace = s.trace := by
  unfold PeekMessageW
  split
  · rfl
  · split <;> rfl

/-- The message pump either finds nothing and changes nothing, or drains one message `m`,
records it, and lets the window procedure run. -/
theorem pumpMessage_spec (P : Platform) (E : Engine) (s : Sys) (message : MSG) :
    ((PeekMessageW s).1 = none ∧ (Application.pumpMessage P E s message).2 = message ∧
      (Application.pumpMessage P E s message).1 = (PeekMessageW s).2) ∨
    (∃ m ext, (PeekMessageW s).1 = some m ∧ (Application.pumpMessage P E s message).2 = m ∧
      (Application.pumpMessage P E s message).1.trace = s.trace ++ Call.Drained m :: ext ∧
      ∀ c ∈ ext, c.isWndCall = true) := by
  unfold Application.pumpMessage
  have ht := PeekMessageW_trace s
  rcases hpk : PeekMessageW s with ⟨o, s1⟩
  rw [hpk] at ht
  cases o with
  | none => left; simp
  | some m =>
    right
    obtain ⟨ext, h1, h2⟩ := DispatchMessageW_extends P E (s1.log (Call.Drained m)) m
    refine ⟨m, ext, rfl, rfl, ?_, h2⟩
    simp only at ht ⊢
    rw [h1]
    simp [Sys.log, ht]

/-- Shape of the trace the message pump adds: nothing, or one drained message followed by
window-procedure calls. -/
theorem pumpMessage_trace (P : Platform) (E : Engine) (s : Sys) (message : MSG) :
    ((Application.pumpMessage P E s message).2 = message ∧
      (Application.pumpMessage P E s message).1.trace = s.trace) ∨
    (∃ ext, (Application.pumpMessage P E s message).1.trace
        = s.trace ++ Call.Drained (Application.pumpMessage P E s message).2 :: ext ∧
      ∀ c ∈ ext, c.isWndCall = true) := by
  rcases pumpMessage_spec P E s message with ⟨_, h2, h3⟩ | ⟨m, ext, _, h2, h3, h4⟩
  · left; exact ⟨h2, by rw [h3, PeekMessageW_trace]⟩
  · right; exact ⟨ext, by rw [h2]; exact h3, h4⟩

/-- Every way one loop iteration can end, with the trace it leaves: the calls `pre` of the
message pump (nothing, or one drained message followed by window-procedure calls), then
`Update`, then `Render`. -/
theorem loopBody_spec (P : Platform) (E : Engine) (st : LoopState) :
    ∃ pre : List Call,
      (Application.pumpMessage P E st.sys st.message).1.trace = st.sys.trace ++ pre ∧
      ((pre = [] ∧ (Application.pumpMessage P E st.sys st.message).2 = st.message) ∨
        ∃ ext, pre = Call.Drained (Application.pumpMessage P E st.sys st.message).2 :: ext ∧
          ∀ c ∈ ext, c.isWndCall = true) ∧
      ((∃ t, E.Update st.frame = some t ∧
          Application.loopBody P E st = .error (t, st.sys.trace ++ pre ++
            [Call.Update ((P.now st.frame : Int) - st.mPreviousFrameTime)])) ∨
       (∃ t, E.Update st.frame = none ∧ E.Render st.frame = some t ∧
          Application.loopBody P E st = .error (t, st.sys.trace ++ pre ++
            [Call.Update ((P.now st.frame : Int) - st.mPreviousFrameTime), Call.Render])) ∨
       (∃ st1, E.Update st.frame = none ∧ E.Render st.frame = none ∧
          Application.loopBody P E st = .ok st1 ∧
          st1.sys.trace = st.sys.trace ++ pre ++
            [Call.Update ((P.now st.frame : Int) - st.mPreviousFrameTime), Call.Render] ∧
          st1.message = (Application.pumpMessage P E st.sys st.message).2 ∧
          st1.mPreviousFrameTime = (P.now st.frame : Int) ∧
          st1.frame = st.frame + 1 ∧
          st1.sys.queue = (Application.pumpMessage P E st.sys st.message).1.queue ∧
          st1.sys.quit = (Application.pumpMessage P E st.sys st.message).1.quit ∧
          st1.sys.alive = (Application.pumpMessage P E st.sys st.message).1.alive ∧
          st1.sys.calls = (Application.pumpMessage P E st.sys st.message).1.calls)) := by
  have hpre : ∃ pre, (Application.pumpMessage P E st.sys st.message).1.trace
      = st.sys.trace ++ pre ∧
      ((pre = [] ∧ (Application.pumpMessage P E st.sys st.message).2 = st.message) ∨
        ∃ ext, pre = Call.Drained (Application.pumpMessage P E st.sys st.message).2 :: ext ∧
          ∀ c ∈ ext, c.isWndCall = true) := by
    rcases pumpMessage_trace P E st.sys st.message with ⟨h0, h⟩ | ⟨ext, h, hw⟩
    · exact ⟨[], by simp [h], Or.inl ⟨rfl, h0⟩⟩
    · exact ⟨_, h, Or.inr ⟨ext, rfl, hw⟩⟩
  obtain ⟨pre, hpre, hshape⟩ := hpre
  refine ⟨pre, hpre, hshape, ?_⟩
  unfold Application.loopBody
  simp only
  cases hu : E.Update st.frame with
  | some t => left; exact ⟨t, rfl, by simp [Sys.log, hpre]⟩
  | none =>
    cases hr : E.Render st.frame with
    | some t => right; left; exact ⟨t, rfl, rfl, by simp [Sys.log, hpre]⟩
    | none =>
      right; right
      exact ⟨_, rfl, rfl, rfl, by simp [Sys.log, hpre], rfl, rfl, rfl, rfl, rfl, rfl, rfl⟩

/-- Invariant rule for the message loop: a property kept by every completed iteration holds of
whatever the loop is observed to do. -/
theorem messageLoop_induction (P : Platform) (E : Engine) (Inv : LoopState → Prop)
    (Post : RunResult → Prop)
    (hstep : ∀ st st1, Inv st → st.message.message ≠ WM_QUIT →
      Application.loopBody P E st = .ok st1 → Inv st1)
    (herr : ∀ st e, Inv st → st.message.message ≠ WM_QUIT →
      Application.loopBody P E st = .error e → Post (Application.catchHandler e))
    (hexit : ∀ st, Inv st → st.message.message = WM_QUIT →
      Post (.returned (toInt32 st.message.wParam) st.sys.trace))
    (hrun : ∀ st, Inv st → st.message.message ≠ WM_QUIT → Post (.running st)) :
    ∀ (fuel : Nat) (st : LoopState), Inv st → Post (Application.messageLoop P E fuel st) := by
  intro fuel
  induction fuel with
  | zero =>
    intro st hinv
    unfold Application.messageLoop
    split_ifs with h
    · exact hrun st hinv h
    · exact hexit st hinv (by simpa using h)
  | succ n ih =>
    intro st hinv
    unfold Application.messageLoop
    split_ifs with h
    · cases hb : Application.loopBody P E st with
      | ok st1 => exact ih st1 (hstep st st1 hinv h hb)
      | error e => exact herr st e hinv h hb
    · exact hexit st hinv (by simpa using h)

theorem messageLoop_succ (P : Platform) (E : Engine) (fuel : Nat) (st : LoopState) :
    Application.messageLoop P E (fuel + 1) st =
      if st.message.message ≠ WM_QUIT then
        match Application.loopBody P E st with
        | .ok st1 => Application.messageLoop P E fuel st1
        | .error e => Application.catchHandler e
      else .returned (toInt32 st.message.wParam) st.sys.trace := rfl

theorem messageLoop_zero (P : Platform) (E : Engine) (st : LoopState) :
    Application.messageLoop P E 0 st =
      if st.message.message ≠ WM_QUIT then .running st
      else .returned (toInt32 st.message.wParam) st.sys.trace := rfl

/-- More fuel continues an observation that was still running. -/
theorem messageLoop_add (P : Platform) (E : Engine) (m : Nat) :
    ∀ (n : Nat) (s0 st : LoopState), Application.messageLoop P E n s0 = .running st →
      Application.messageLoop P E (n + m) s0 = Application.messageLoop P E m st := by
  intro n
  induction n with
  | zero =>
    intro s0 st h
    rw [messageLoop_zero] at h
    split_ifs at h
    simp only [RunResult.running.injEq] at h
    subst h
    simp
  | succ n ih =>
    intro s0 st h
    rw [Nat.add_right_comm, messageLoop_succ]
    rw [messageLoop_succ] at h
    split_ifs at h ⊢ with hc
    cases hb : Application.loopBody P E s0 with
    | ok st1 =>
      rw [hb] at h
      simp only at h ⊢
      exact ih st1 st h
    | error e =>
      rw [hb] at h
      simp only at h
      rcases e with ⟨t, tr⟩
      cases t <;> simp [Application.catchHandler] at h

theorem Run_add (P : Platform) (E : Engine) (n m : Nat) (st : LoopState)
    (h : Application.Run P E n = .running st) :
    Application.Run P E (n + m) = Application.messageLoop P E m st := by
  unfold Application.Run at h ⊢
  cases hs : Application.setup P E with
  | error e =>
    rw [hs] at h
    rcases e with ⟨t, tr⟩
    cases t <;> simp [Application.catchHandler] at h
  | ok s0 =>
    rw [hs] at h
    simp only at h ⊢
    exact messageLoop_add P E m n s0 st h

/-! ## Setup -/

/-- Every way the code before the loop can end, with the trace it leaves. -/
theorem setup_cases (P : Platform) (E : Engine) :
    (P.registerClassResult = 0 ∧
      Application.setup P E
        = .error (Thrown.stdException, [Call.RegisterClassExW, Call.MessageBoxW])) ∨
    (P.registerClassResult ≠ 0 ∧ ∃ ext : List Call, (∀ c ∈ ext, c.isWndCall = true) ∧
      ((P.createdHandle = 0 ∧
          Application.setup P E = .error (Thrown.stdException,
            [Call.RegisterClassExW,
              Call.CreateWindowExW
                (Application.layout P.frame P.monitorWidth P.monitorHeight).windowXPos
                (Application.layout P.frame P.monitorWidth P.monitorHeight).windowYPos
                (Application.layout P.frame P.monitorWidth P.monitorHeight).windowWidth
                (Application.layout P.frame P.monitorWidth P.monitorHeight).windowHeight E.ptr]
              ++ ext ++ [Call.MessageBoxW])) ∨
       (P.createdHandle ≠ 0 ∧ ∃ t, E.Init = some t ∧
          Application.setup P E = .error (t,
            [Call.RegisterClassExW,
              Call.CreateWindowExW
                (Application.layout P.frame P.monitorWidth P.monitorHeight).windowXPos
                (Application.layout P.frame P.monitorWidth P.monitorHeight).windowYPos
                (Application.layout P.frame P.monitorWidth P.monitorHeight).windowWidth
                (Application.layout P.frame P.monitorWidth P.monitorHeight).windowHeight E.ptr]
              ++ ext ++ [Call.Init P.createdHandle
                (Application.layout P.frame P.monitorWidth P.monitorHeight).clientDimensions])) ∨
       (P.createdHandle ≠ 0 ∧ E.Init = none ∧ ∃ (ext2 : List Call) (st : LoopState),
          (∀ c ∈ ext2, c.isWndCall = true) ∧
          Application.setup P E = .ok st ∧
          st.sys.trace =
            [Call.RegisterClassExW,
              Call.CreateWindowExW
                (Application.layout P.frame P.monitorWidth P.monitorHeight).windowXPos
                (Application.layout P.frame P.monitorWidth P.monitorHeight).windowYPos
                (Application.layout P.frame P.monitorWidth P.monitorHeight).windowWidth
                (Application.layout P.frame P.monitorWidth P.monitorHeight).windowHeight E.ptr]
              ++ ext ++ [Call.Init P.createdHandle
                (Application.layout P.frame P.monitorWidth P.monitorHeight).clientDimensions,
                Call.ShowWindow] ++ ext2 ∧
          st.message = ⟨0, 0, 0, 0⟩ ∧ st.mPreviousFrameTime = 0 ∧ st.frame = 0))) := by
  by_cases hreg : P.registerClassResult = 0
  · left
    refine ⟨hreg, ?_⟩
    simp [Application.setup, hreg, ErrorMessage, fatalError, bind, Except.bind]
  · right
    refine ⟨hreg, ?_⟩
    set lay := Application.layout P.frame P.monitorWidth P.monitorHeight with hlay
    obtain ⟨ext, hext, hwnd⟩ := sendAll_extends P E P.createMessages
      ⟨[Call.RegisterClassExW, Call.CreateWindowExW lay.windowXPos lay.windowYPos
          lay.windowWidth lay.windowHeight E.ptr], 0, true, P.posted, none, 0⟩
    refine ⟨ext, hwnd, ?_⟩
    by_cases hh : P.createdHandle = 0
    · left
      refine ⟨hh, ?_⟩
      simp [Application.setup, hreg, hh, ErrorMessage, fatalError, bind, Except.bind, pure,
        Except.pure, ← hlay, hext, Sys.log]
    · right
      cases hi : E.Init with
      | some t =>
        left
        refine ⟨hh, t, rfl, ?_⟩
        simp [Application.setup, hreg, hh, hi, ErrorMessage, fatalError, bind, Except.bind, pure,
          Except.pure, ← hlay, hext, Sys.log]
      | none =>
        right
        obtain ⟨ext2, hext2, hwnd2⟩ := sendAll_extends P E P.showMessages
          (((sendAll P E
            ⟨[Call.RegisterClassExW, Call.CreateWindowExW lay.windowXPos lay.windowYPos
              lay.windowWidth lay.windowHeight E.ptr], 0, true, P.posted, none, 0⟩
            P.createMessages).log (Call.Init P.createdHandle lay.clientDimensions)).log
              Call.ShowWindow)
        refine ⟨hh, rfl, ext2,
          ⟨sendAll P E (((sendAll P E
            ⟨[Call.RegisterClassExW, Call.CreateWindowExW lay.windowXPos lay.windowYPos
              lay.windowWidth lay.windowHeight E.ptr], 0, true, P.posted, none, 0⟩
            P.createMessages).log (Call.Init P.createdHandle lay.clientDimensions)).log
              Call.ShowWindow) P.showMessages, ⟨0, 0, 0, 0⟩, 0, 0⟩, hwnd2, ?_, ?_, rfl, rfl, rfl⟩
        · simp [Application.setup, hreg, hh, hi, ErrorMessage, fatalError, bind, Except.bind,
            pure, Except.pure, ← hlay, Sys.log]
        · simp only [hext2]
          simp [Sys.log, hext]

theorem isWndCall_isSetupCall (c : Call) (h : c.isWndCall = true) : c.isSetupCall = true := by
  cases c <;> simp_all [Call.isSetupCall, Call.isWndCall]

/-- The trace at loop entry holds setup calls only, and the loop variables have their initial
values: `message` zeroed, `mPreviousFrameTime` at the clock epoch. -/
theorem setup_ok (P : Platform) (E : Engine) (st : LoopState)
    (h : Application.setup P E = .ok st) :
    (∀ c ∈ st.sys.trace, c.isSetupCall = true) ∧
    st.message = ⟨0, 0, 0, 0⟩ ∧ st.mPreviousFrameTime = 0 ∧ st.frame = 0 := by
  rcases setup_cases P E with ⟨_, h1⟩ | ⟨_, ext, hwnd, ⟨_, h1⟩ | ⟨_, t, _, h1⟩ |
    ⟨_, _, ext2, st1, hwnd2, h1, htr, hm, hp, hf⟩⟩
  · rw [h1] at h; cases h
  · rw [h1] at h; cases h
  · rw [h1] at h; cases h
  · rw [h1] at h
    have : st1 = st := by injection h
    subst this
    refine ⟨?_, hm, hp, hf⟩
    intro c hc
    rw [htr] at hc
    rcases List.mem_append.1 hc with hc | hc
    · rcases List.mem_append.1 hc with hc | hc
      · rcases List.mem_append.1 hc with hc | hc
        · simp only [List.mem_cons, List.mem_singleton, List.not_mem_nil, or_false] at hc
          rcases hc with hc | hc <;> subst hc <;> rfl
        · exact isWndCall_isSetupCall c (hwnd c hc)
      · simp only [List.mem_cons, List.mem_singleton, List.not_mem_nil, or_false] at hc
        rcases hc with hc | hc <;> subst hc <;> rfl
    · exact isWndCall_isSetupCall c (hwnd2 c hc)

theorem isSetupCall_not_tick (c : Call) (h : c.isSetupCall = true) : c.isTick = false := by
  cases c <;> simp_all [Call.isSetupCall, Call.isWndCall, Call.isTick]

theorem isSetupCall_not_update (c : Call) (h : c.isSetupCall = true) : c.isUpdate = false := by
  cases c <;> simp_all [Call.isSetupCall, Call.isWndCall, Call.isUpdate]

theorem isSetupCall_not_quitDrain (c : Call) (h : c.isSetupCall = true) :
    c.isQuitDrain = false := by
  cases c <;> simp_all [Call.isSetupCall, Call.isWndCall, Call.isQuitDrain]

theorem isWndCall_not_tick (c : Call) (h : c.isWndCall = true) : c.isTick = false := by
  cases c <;> simp_all [Call.isWndCall, Call.isTick]

theorem isWndCall_not_quitDrain (c : Call) (h : c.isWndCall = true) :
    c.isQuitDrain = false := by
  cases c <;> simp_all [Call.isWndCall, Call.isQuitDrain]

theorem isWndCall_not_lifecycle (c : Call) (h : c.isWndCall = true) :
    c.isLifecycle = false := by
  cases c <;> simp_all [Call.isWndCall, Call.isLifecycle]

theorem filter_eq_nil_of_forall {p : Call → Bool} (l : List Call)
    (h : ∀ c ∈ l, p c = false) : l.filter p = [] := by
  rw [List.filter_eq_nil_iff]
  intro c hc
  simp [h c hc]

/-! ## Results of `Run` in general -/

theorem catchHandler_trace (t : Thrown) (tr : List Call) :
    (Application.catchHandler (t, tr)).trace = tr := by
  cases t <;> rfl

theorem catchHandler_returned (t : Thrown) (tr tr1 : List Call) (status : Int)
    (h : Application.catchHandler (t, tr) = .returned status tr1) :
    t = Thrown.stdException ∧ status = -1 ∧ tr1 = tr := by
  cases t
  · simp only [Application.catchHandler, RunResult.returned.injEq] at h
    exact ⟨rfl, h.1.symm, h.2.symm⟩
  · simp [Application.catchHandler] at h

theorem catchHandler_not_running (e : Thrown × List Call) (st : LoopState) :
    Application.catchHandler e ≠ .running st := by
  rcases e with ⟨t, tr⟩
  cases t <;> simp [Application.catchHandler]

/-- A failed setup leaves setup calls only, and no engine entry point unless `Init` raised. -/
theorem setup_error (P : Platform) (E : Engine) (t : Thrown) (tr : List Call)
    (h : Application.setup P E = .error (t, tr)) :
    (∀ c ∈ tr, c.isSetupCall = true) ∧
    ((P.registerClassResult = 0 ∨ P.createdHandle = 0) ∧ t = Thrown.stdException ∧
        Call.MessageBoxW ∈ tr ∧ (∀ c ∈ tr, c.isLifecycle = false) ∨
      P.registerClassResult ≠ 0 ∧ P.createdHandle ≠ 0 ∧ E.Init = some t) := by
  rcases setup_cases P E with ⟨h0, h1⟩ | ⟨hreg, ext, hwnd, ⟨h0, h1⟩ | ⟨h0, t1, hi, h1⟩ |
    ⟨_, _, ext2, st1, _, h1, _⟩⟩
  · rw [h1] at h
    injection h with h
    injection h with ht htr
    subst ht htr
    refine ⟨by decide, Or.inl ⟨Or.inl h0, rfl, by decide, by decide⟩⟩
  · rw [h1] at h
    injection h with h
    injection h with ht htr
    subst ht htr
    have hall : ∀ c ∈ [Call.RegisterClassExW, Call.CreateWindowExW
        (Application.layout P.frame P.monitorWidth P.monitorHeight).windowXPos
        (Application.layout P.frame P.monitorWidth P.monitorHeight).windowYPos
        (Application.layout P.frame P.monitorWidth P.monitorHeight).windowWidth
        (Application.layout P.frame P.monitorWidth P.monitorHeight).windowHeight E.ptr]
        ++ ext ++ [Call.MessageBoxW], c.isSetupCall = true ∧ c.isLifecycle = false := by
      intro c hc
      simp only [List.mem_append, List.mem_cons, List.mem_singleton, List.not_mem_nil,
        or_false] at hc
      rcases hc with ((hc | hc) | hc) | hc
      · subst hc; exact ⟨rfl, rfl⟩
      · subst hc; exact ⟨rfl, rfl⟩
      · exact ⟨isWndCall_isSetupCall c (hwnd c hc), isWndCall_not_lifecycle c (hwnd c hc)⟩
      · subst hc; exact ⟨rfl, rfl⟩
    exact ⟨fun c hc => (hall c hc).1,
      Or.inl ⟨Or.inr h0, rfl, by simp, fun c hc => (hall c hc).2⟩⟩
  · rw [h1] at h
    injection h with h
    injection h with ht htr
    subst ht htr
    refine ⟨?_, Or.inr ⟨hreg, h0, hi⟩⟩
    intro c hc
    simp only [List.mem_append, List.mem_cons, List.mem_singleton, List.not_mem_nil,
      or_false] at hc
    rcases hc with ((hc | hc) | hc) | hc
    · subst hc; rfl
    · subst hc; rfl
    · exact isWndCall_isSetupCall c (hwnd c hc)
    · subst hc; rfl
  · rw [h1] at h; cases h

/-- Invariant rule for `Run`: a property established by setup and kept by every completed
iteration holds of whatever `Run` is observed to do. -/
theorem Run_induction (P : Platform) (E : Engine) (Inv : LoopState → Prop)
    (Post : RunResult → Prop)
    (hfail : ∀ e, Application.setup P E = .error e → Post (Application.catchHandler e))
    (hinit : ∀ st, Application.setup P E = .ok st → Inv st)
    (hstep : ∀ st st1, Inv st → st.message.message ≠ WM_QUIT →
      Application.loopBody P E st = .ok st1 → Inv st1)
    (herr : ∀ st e, Inv st → st.message.message ≠ WM_QUIT →
      Application.loopBody P E st = .error e → Post (Application.catchHandler e))
    (hexit : ∀ st, Inv st → st.message.message = WM_QUIT →
      Post (.returned (toInt32 st.message.wParam) st.sys.trace))
    (hrun : ∀ st, Inv st → st.message.message ≠ WM_QUIT → Post (.running st))
    (fuel : Nat) : Post (Application.Run P E fuel) := by
  unfold Application.Run
  cases hs : Application.setup P E with
  | error e => exact hfail e hs
  | ok st => exact messageLoop_induction P E Inv Post hstep herr hexit hrun fuel st (hinit st hs)

/-! ## Calls after the quit signal -/

theorem ticksAfterQuit_append_of_no_quit (l1 l2 : List Call)
    (h : ∀ c ∈ l1, c.isQuitDrain = false) : ticksAfterQuit (l1 ++ l2) = ticksAfterQuit l2 := by
  induction l1 with
  | nil => rfl
  | cons c l1 ih =>
    have hc := h c (by simp)
    have := ih (fun c1 h1 => h c1 (by simp [h1]))
    unfold ticksAfterQuit at this ⊢
    simp only [List.cons_append, List.dropWhile_cons, hc, Bool.not_false, if_true]
    exact this

theorem ticksAfterQuit_of_no_quit (l : List Call) (h : ∀ c ∈ l, c.isQuitDrain = false) :
    ticksAfterQuit l = [] := by
  have := ticksAfterQuit_append_of_no_quit l [] h
  simpa [ticksAfterQuit] using this

theorem ticksAfterQuit_quit_cons (m : MSG) (l : List Call) (h : m.message = WM_QUIT) :
    ticksAfterQuit (Call.Drained m :: l) = l.filter Call.isTick := by
  simp [ticksAfterQuit, List.dropWhile_cons, Call.isQuitDrain, h, Call.isTick]

/-- The calls one iteration adds after a drained quit signal. -/
theorem ticksAfterQuit_iteration (tr pre tail : List Call) (m : MSG)
    (hno : ∀ c ∈ tr, c.isQuitDrain = false)
    (hshape : (pre = [] ∧ True) ∨
      ∃ ext, pre = Call.Drained m :: ext ∧ ∀ c ∈ ext, c.isWndCall = true)
    (htail : ∀ c ∈ tail, c.isTick = true) :
    (m.message = WM_QUIT ∧ pre ≠ [] ∧ ticksAfterQuit (tr ++ pre ++ tail) = tail) ∨
    ((m.message ≠ WM_QUIT ∨ pre = []) ∧ ∀ c ∈ tr ++ pre ++ tail, c.isQuitDrain = false) := by
  have htq : ∀ c ∈ tail, c.isQuitDrain = false := by
    intro c hc
    have := htail c hc
    cases c <;> simp_all [Call.isTick, Call.isQuitDrain]
  rcases hshape with ⟨h, _⟩ | ⟨ext, h, hw⟩
  · subst h
    right
    refine ⟨Or.inr rfl, ?_⟩
    intro c hc
    simp only [List.append_nil, List.mem_append] at hc
    rcases hc with hc | hc
    · exact hno c hc
    · exact htq c hc
  · subst h
    by_cases hm : m.message = WM_QUIT
    · left
      refine ⟨hm, by simp, ?_⟩
      rw [List.append_assoc, ticksAfterQuit_append_of_no_quit _ _ hno, List.cons_append,
        ticksAfterQuit_quit_cons m _ hm, List.filter_append,
        filter_eq_nil_of_forall ext (fun c hc => isWndCall_not_tick c (hw c hc))]
      simp only [List.nil_append]
      rw [List.filter_eq_self]
      exact htail
    · right
      refine ⟨Or.inl hm, ?_⟩
      intro c hc
      simp only [List.mem_append, List.mem_cons] at hc
      rcases hc with (hc | hc | hc) | hc
      · exact hno c hc
      · subst hc; simp [Call.isQuitDrain, hm]
      · exact isWndCall_not_quitDrain c (hw c hc)
      · exact htq c hc

/-- C4, counterexample: on the demo platform with the Escape key posted, `Run` returns 0 and
one Update and one Render follow the drain of the quit signal. -/
theorem c4_ticks_after_quit_counterexample :
    Application.Run escapePlatform demoEngine 2 = .returned 0 escapeTrace ∧
    ticksAfterQuit (Application.Run escapePlatform demoEngine 2).trace
      = [Call.Update 16000000, Call.Render] := by
  constructor <;> decide

/-- C4, amended: after the loop has drained the quit signal, Update and Render are invoked at
most once more each, in this order, in the remainder of the iteration that drained it, and
never in a later iteration; when `Run` returns after a drained quit signal and the engine
never raises, they are invoked exactly once more each. -/
theorem c4_one_tick_after_quit (P : Platform) (E : Engine) (fuel : Nat) :
    (ticksAfterQuit (Application.Run P E fuel).trace = [] ∨
      ∃ d, ticksAfterQuit (Application.Run P E fuel).trace = [Call.Update d] ∨
        ticksAfterQuit (Application.Run P E fuel).trace = [Call.Update d, Call.Render]) ∧
    (∀ status tr, Application.Run P E fuel = .returned status tr →
      (∀ i, E.Update i = none ∧ E.Render i = none) →
      (∃ c ∈ tr, c.isQuitDrain = true) →
      ∃ d, ticksAfterQuit tr = [Call.Update d, Call.Render]) := by
  apply Run_induction P E
    (fun s => (s.message.message ≠ WM_QUIT → ∀ c ∈ s.sys.trace, c.isQuitDrain = false) ∧
      (s.message.message = WM_QUIT →
        ∃ d, ticksAfterQuit s.sys.trace = [Call.Update d, Call.Render]))
    (fun r => (ticksAfterQuit r.trace = [] ∨
      ∃ d, ticksAfterQuit r.trace = [Call.Update d] ∨
        ticksAfterQuit r.trace = [Call.Update d, Call.Render]) ∧
      (∀ status tr, r = .returned status tr →
        (∀ i, E.Update i = none ∧ E.Render i = none) →
        (∃ c ∈ tr, c.isQuitDrain = true) →
        ∃ d, ticksAfterQuit tr = [Call.Update d, Call.Render]))
  · rintro ⟨t, tr⟩ hs
    have hno : ∀ c ∈ tr, c.isQuitDrain = false :=
      fun c hc => isSetupCall_not_quitDrain c ((setup_error P E t tr hs).1 c hc)
    refine ⟨Or.inl (by rw [catchHandler_trace]; exact ticksAfterQuit_of_no_quit tr hno), ?_⟩
    intro status tr1 hr _ ⟨c, hc, hq⟩
    obtain ⟨_, _, htr⟩ := catchHandler_returned t tr tr1 status hr
    subst htr
    rw [hno c hc] at hq
    cases hq
  · intro st hs
    obtain ⟨hsetup, hm, _⟩ := setup_ok P E st hs
    refine ⟨fun _ c hc => isSetupCall_not_quitDrain c (hsetup c hc), ?_⟩
    intro hq
    rw [hm] at hq
    exact absurd hq (by decide)
  · intro s s1 ⟨hno, _⟩ hc hb
    obtain ⟨pre, _, hshape, hcases⟩ := loopBody_spec P E s
    rcases hcases with ⟨t, _, he⟩ | ⟨t, _, _, he⟩ | ⟨s2, _, _, hok, htr2, hmsg, _⟩
    · rw [he] at hb; cases hb
    · rw [he] at hb; cases hb
    · rw [hok] at hb
      have : s2 = s1 := by injection hb
      subst this
      have hshape2 : (pre = [] ∧ True) ∨ ∃ ext, pre = Call.Drained s2.message :: ext ∧
          ∀ c ∈ ext, c.isWndCall = true := by
        rcases hshape with ⟨h, _⟩ | h
        · exact Or.inl ⟨h, trivial⟩
        · right; rw [hmsg]; exact h
      rcases ticksAfterQuit_iteration s.sys.trace pre
          [Call.Update ((P.now s.frame : Int) - s.mPreviousFrameTime), Call.Render] s2.message
          (hno hc) hshape2 (by simp [Call.isTick]) with ⟨hq, _, hta⟩ | ⟨hq, hall⟩
      · refine ⟨fun h => absurd hq h, fun _ => ⟨_, by rw [htr2]; exact hta⟩⟩
      · refine ⟨fun _ => by rw [htr2]; exact hall, ?_⟩
        intro hq2
        rcases hq with hq | hq
        · exact absurd hq2 hq
        · rcases hshape with ⟨_, h⟩ | ⟨ext, h, _⟩
          · rw [hmsg, h] at hq2; exact absurd hq2 hc
          · rw [hq] at h; cases h
  · intro s e ⟨hno, _⟩ hc hb
    obtain ⟨pre, _, hshape, hcases⟩ := loopBody_spec P E s
    have hshape2 : (pre = [] ∧ True) ∨
        ∃ ext, pre = Call.Drained (Application.pumpMessage P E s.sys s.message).2 :: ext ∧
          ∀ c ∈ ext, c.isWndCall = true := by
      rcases hshape with ⟨h, _⟩ | h
      · exact Or.inl ⟨h, trivial⟩
      · exact Or.inr h
    rcases hcases with ⟨t, hu, he⟩ | ⟨t, _, hr, he⟩ | ⟨s2, _, _, hok, _⟩
    · rw [he] at hb
      injection hb with hb
      subst hb
      constructor
      · rw [catchHandler_trace]
        rcases ticksAfterQuit_iteration s.sys.trace pre
            [Call.Update ((P.now s.frame : Int) - s.mPreviousFrameTime)] _
            (hno hc) hshape2 (by simp [Call.isTick]) with ⟨_, _, hta⟩ | ⟨_, hall⟩
        · exact Or.inr ⟨_, Or.inl hta⟩
        · exact Or.inl (ticksAfterQuit_of_no_quit _ hall)
      · intro status tr1 _ hE _
        rw [(hE s.frame).1] at hu
        cases hu
    · rw [he] at hb
      injection hb with hb
      subst hb
      constructor
      · rw [catchHandler_trace]
        rcases ticksAfterQuit_iteration s.sys.trace pre
            [Call.Update ((P.now s.frame : Int) - s.mPreviousFrameTime), Call.Render] _
            (hno hc) hshape2 (by simp [Call.isTick]) with ⟨_, _, hta⟩ | ⟨_, hall⟩
        · exact Or.inr ⟨_, Or.inr hta⟩
        · exact Or.inl (ticksAfterQuit_of_no_quit _ hall)
      · intro status tr1 _ hE _
        rw [(hE s.frame).2] at hr
        cases hr
    · rw [hok] at hb; cases hb
  · intro s ⟨_, hq⟩ hm
    obtain ⟨d, hd⟩ := hq hm
    refine ⟨Or.inr ⟨d, Or.inr hd⟩, ?_⟩
    intro status tr hr _ _
    injection hr with _ htr
    subst htr
    exact ⟨d, hd⟩
  · intro s ⟨hno, _⟩ hm
    refine ⟨Or.inl (ticksAfterQuit_of_no_quit _ (hno hm)), ?_⟩
    intro status tr hr
    cases hr

/-- C4 amended, at a concrete run: the Escape key posted on the demo platform. -/
theorem c4_one_tick_after_quit_witness :
    ∃ d, ticksAfterQuit (Application.Run escapePlatform demoEngine 2).trace
      = [Call.Update d, Call.Render] :=
  (c4_one_tick_after_quit escapePlatform demoEngine 2).2 0 _ (by decide)
    (fun _ => ⟨rfl, rfl⟩) ⟨Call.Drained ⟨0, WM_QUIT, 0, 0⟩, by decide, by decide⟩

/-! ## Properties of the window procedure -/

/-- C6: when the debug-overlay handler reports the notification handled, the window procedure
returns at once (with `true`) and makes no call at all: no engine call, no back-reference
store, no destruction, no quit signal, no default handling. -/
theorem c6_overlay_handled_returns_immediately (env : WndEnv) (message wParam lParam : Nat)
    (h : env.imguiResult ≠ 0) :
    Application.WindowProc env message wParam lParam = (1, []) := by
  simp [Application.WindowProc, h]

/-- C6 at a concrete input: an Escape key press consumed by the overlay. -/
theorem c6_overlay_handled_witness :
    Application.WindowProc ⟨7, 1, 7, ⟨0, 0, 640, 480⟩, 0⟩ WM_KEYDOWN VK_ESCAPE 0 = (1, []) :=
  c6_overlay_handled_returns_immediately ⟨7, 1, 7, ⟨0, 0, 640, 480⟩, 0⟩ WM_KEYDOWN VK_ESCAPE 0
    (by decide)

/-- C7: a key notification the overlay did not consume returns 0; its engine calls are exactly
one `OnKeyAction (k, true)` for KeyDown and one `OnKeyAction (k, false)` for KeyUp when an
engine is bound, and none when no engine is bound. -/
theorem c7_key_forwarding (env : WndEnv) (k lParam : Nat) (h : env.imguiResult = 0) :
    (Application.WindowProc env WM_KEYDOWN k lParam).1 = 0 ∧
    (Application.WindowProc env WM_KEYUP k lParam).1 = 0 ∧
    (env.userData ≠ 0 →
      (Application.WindowProc env WM_KEYDOWN k lParam).2.filter Call.isEngineCall
          = [Call.OnKeyAction k true] ∧
      (Application.WindowProc env WM_KEYUP k lParam).2.filter Call.isEngineCall
          = [Call.OnKeyAction k false]) ∧
    (env.userData = 0 →
      (Application.WindowProc env WM_KEYDOWN k lParam).2.filter Call.isEngineCall = [] ∧
      (Application.WindowProc env WM_KEYUP k lParam).2.filter Call.isEngineCall = []) := by
  refine ⟨?_, ?_, ?_, ?_⟩
  · simp [Application.WindowProc, h, WM_KEYDOWN, WM_CREATE]
  · simp [Application.WindowProc, h, WM_KEYDOWN, WM_CREATE, WM_KEYUP]
  · intro hb
    constructor
    · by_cases hk : k = VK_ESCAPE <;>
        simp [Application.WindowProc, h, hb, hk, WM_KEYDOWN, WM_CREATE, Call.isEngineCall]
    · simp [Application.WindowProc, h, hb, WM_KEYDOWN, WM_CREATE, WM_KEYUP, Call.isEngineCall]
  · intro hb
    constructor
    · by_cases hk : k = VK_ESCAPE <;>
        simp [Application.WindowProc, h, hb, hk, WM_KEYDOWN, WM_CREATE, Call.isEngineCall]
    · simp [Application.WindowProc, h, hb, WM_KEYDOWN, WM_CREATE, WM_KEYUP, Call.isEngineCall]

/-- C7 at the scenario of the specification: KeyDown(65) then KeyUp(65) with no engine bound
make no engine call, and both return 0. -/
theorem c7_key_forwarding_witness :
    (Application.WindowProc ⟨0, 0, 0, ⟨0, 0, 0, 0⟩, 0⟩ WM_KEYDOWN 65 0).1 = 0 ∧
    (Application.WindowProc ⟨0, 0, 0, ⟨0, 0, 0, 0⟩, 0⟩ WM_KEYUP 65 0).1 = 0 ∧
    (Application.WindowProc ⟨0, 0, 0, ⟨0, 0, 0, 0⟩, 0⟩ WM_KEYDOWN 65 0).2.filter
      Call.isEngineCall = [] ∧
    (Application.WindowProc ⟨0, 0, 0, ⟨0, 0, 0, 0⟩, 0⟩ WM_KEYUP 65 0).2.filter
      Call.isEngineCall = [] :=
  ⟨(c7_key_forwarding ⟨0, 0, 0, ⟨0, 0, 0, 0⟩, 0⟩ 65 0 rfl).1,
    (c7_key_forwarding ⟨0, 0, 0, ⟨0, 0, 0, 0⟩, 0⟩ 65 0 rfl).2.1,
    ((c7_key_forwarding ⟨0, 0, 0, ⟨0, 0, 0, 0⟩, 0⟩ 65 0 rfl).2.2.2 rfl).1,
    ((c7_key_forwarding ⟨0, 0, 0, ⟨0, 0, 0, 0⟩, 0⟩ 65 0 rfl).2.2.2 rfl).2⟩

/-- C8: a Resized notification the overlay did not consume, dispatched while an engine is
bound, makes exactly one call, `Resize`, with the live client area `(width, height)` reported
by `GetClientRect` at that moment, whatever the notification parameters are; it returns 0. -/
theorem c8_resize_uses_live_client_area (userData lpCreateParams wParam lParam : Nat)
    (defResult : Int) (width height : Nat)
    (hb : userData ≠ 0) (hw : width < 2147483648) (hh : height < 2147483648) :
    Application.WindowProc ⟨userData, 0, lpCreateParams, GetClientRect width height, defResult⟩
        WM_SIZE wParam lParam
      = (0, [Call.Resize ⟨width, height⟩]) := by
  have e1 : toUint32 (width : Int) = width := by
    unfold toUint32; omega
  have e2 : toUint32 (height : Int) = height := by
    unfold toUint32; omega
  simp [Application.WindowProc, hb, WM_SIZE, WM_KEYDOWN, WM_CREATE, WM_KEYUP, GetClientRect,
    e1, e2]

/-- C8 at the scenario of the specification: the live client area is 640x480 while the
notification itself carries other numbers (`lParam` encodes 800x600). -/
theorem c8_resize_witness :
    Application.WindowProc ⟨7, 0, 7, GetClientRect 640 480, 0⟩ WM_SIZE 0 39322400
      = (0, [Call.Resize ⟨640, 480⟩]) :=
  c8_resize_uses_live_client_area 7 7 0 39322400 0 640 480 (by decide) (by decide) (by decide)

/-! ## The idle loop and frame timing -/

theorem tickTrace_succ (now : Nat → Nat) (n : Nat) :
    tickTrace now (n + 1) = tickTrace now n ++ [Call.Update (frameDelta now n), Call.Render] := by
  simp [tickTrace, List.range_succ]

theorem tickTrace_filter_isTick (now : Nat → Nat) (n : Nat) :
    (tickTrace now n).filter Call.isTick = tickTrace now n := by
  induction n with
  | zero => simp [tickTrace]
  | succ n ih => rw [tickTrace_succ, List.filter_append, ih]; simp [Call.isTick]

theorem tickTrace_count_update (now : Nat → Nat) (n : Nat) :
    ((tickTrace now n).filter Call.isUpdate).length = n := by
  induction n with
  | zero => simp [tickTrace]
  | succ n ih => rw [tickTrace_succ, List.filter_append, List.length_append, ih]; simp [Call.isUpdate]

theorem tickTrace_count_render (now : Nat → Nat) (n : Nat) :
    (tickTrace now n).count Call.Render = n := by
  induction n with
  | zero => simp [tickTrace]
  | succ n ih => rw [tickTrace_succ, List.count_append, ih]; simp [List.count_cons]

theorem pumpMessage_idle (P : Platform) (E : Engine) (s : Sys) (message : MSG)
    (hq : s.queue = []) (hquit : s.quit = none) :
    Application.pumpMessage P E s message = (s, message) := by
  simp [Application.pumpMessage, PeekMessageW, hq, hquit]

/-- With nothing pending and an engine that returns, `n` iterations leave the loop running,
having added exactly the alternating Update/Render calls of `n` iterations. -/
theorem messageLoop_idle (P : Platform) (E : Engine) (st : LoopState)
    (hm : st.message.message ≠ WM_QUIT) (hq : st.sys.queue = []) (hquit : st.sys.quit = none)
    (hf : st.frame = 0) (hp : st.mPreviousFrameTime = 0) :
    ∀ n : Nat, (∀ i, i < n → E.Update i = none ∧ E.Render i = none) →
      ∃ st1, Application.messageLoop P E n st = .running st1 ∧
        st1.sys.trace = st.sys.trace ++ tickTrace P.now n ∧
        st1.frame = n ∧ st1.sys.queue = [] ∧ st1.sys.quit = none ∧
        st1.message = st.message ∧
        st1.mPreviousFrameTime = (if n = 0 then 0 else (P.now (n - 1) : Int)) := by
  intro n
  induction n with
  | zero =>
    intro _
    refine ⟨st, ?_, by simp [tickTrace], hf, hq, hquit, rfl, by simp [hp]⟩
    rw [messageLoop_zero]; simp [hm]
  | succ n ih =>
    intro hE
    obtain ⟨st1, hrun, htr, hfr, hq1, hquit1, hmsg, hprev⟩ :=
      ih (fun i hi => hE i (Nat.lt_succ_of_lt hi))
    have hm1 : st1.message.message ≠ WM_QUIT := by rw [hmsg]; exact hm
    obtain ⟨hu, hr⟩ := hE n (Nat.lt_succ_self n)
    have hbody : Application.loopBody P E st1 =
        .ok ⟨(st1.sys.log (Call.Update ((P.now n : Int) - st1.mPreviousFrameTime))).log
          Call.Render, st1.message, (P.now n : Int), n + 1⟩ := by
      simp [Application.loopBody, pumpMessage_idle P E st1.sys st1.message hq1 hquit1, hfr, hu, hr]
    refine ⟨⟨(st1.sys.log (Call.Update ((P.now n : Int) - st1.mPreviousFrameTime))).log
      Call.Render, st1.message, (P.now n : Int), n + 1⟩, ?_, ?_, rfl, ?_, ?_, ?_, ?_⟩
    · rw [messageLoop_add P E 1 n st st1 hrun, messageLoop_succ, if_pos hm1, hbody]
      simp only
      rw [messageLoop_zero, if_pos hm1]
    · simp only [Sys.log]
      rw [htr, tickTrace_succ, hprev]
      simp [frameDelta]
    · simpa [Sys.log] using hq1
    · simpa [Sys.log] using hquit1
    · exact hmsg
    · simp

/-- C1: when setup succeeds, nothing is pending at loop entry, and the engine returns from
every call, the loop after `N` iterations has called Update and Render exactly `N` times each,
in the order Update, Render, Update, Render, ..., each Update receiving the delta computed in
its own iteration; nothing else was called in the loop. -/
theorem c1_idle_loop_ticks (P : Platform) (E : Engine) (N : Nat) (st : LoopState)
    (hs : Application.setup P E = .ok st)
    (hq : st.sys.queue = []) (hquit : st.sys.quit = none)
    (hE : ∀ i, i < N → E.Update i = none ∧ E.Render i = none) :
    ∃ st1, Application.Run P E N = .running st1 ∧
      st1.sys.trace = st.sys.trace ++ tickTrace P.now N ∧
      st1.sys.trace.filter Call.isTick = tickTrace P.now N ∧
      (st1.sys.trace.filter Call.isUpdate).length = N ∧
      st1.sys.trace.count Call.Render = N := by
  obtain ⟨hsetup, hm, hp, hf⟩ := setup_ok P E st hs
  have hm0 : st.message.message ≠ WM_QUIT := by rw [hm]; decide
  obtain ⟨st1, hrun, htr, -⟩ := messageLoop_idle P E st hm0 hq hquit hf hp N hE
  refine ⟨st1, ?_, htr, ?_, ?_, ?_⟩
  · simp [Application.Run, hs, hrun]
  · rw [htr, List.filter_append, tickTrace_filter_isTick,
      filter_eq_nil_of_forall _ (fun c hc => isSetupCall_not_tick c (hsetup c hc))]
    simp
  · rw [htr, List.filter_append, List.length_append, tickTrace_count_update,
      filter_eq_nil_of_forall _ (fun c hc => isSetupCall_not_update c (hsetup c hc))]
    simp
  · rw [htr, List.count_append, tickTrace_count_render]
    have : List.count Call.Render st.sys.trace = 0 := by
      rw [List.count_eq_zero]
      intro hmem
      have := hsetup _ hmem
      simp [Call.isSetupCall, Call.isWndCall] at this
    omega

/-- C1 at a concrete run: three idle iterations on the demo platform. -/
theorem c1_idle_loop_witness :
    ∃ st1, Application.Run demoPlatform demoEngine 3 = .running st1 ∧
      st1.sys.trace.filter Call.isTick =
        [Call.Update 5000000000, Call.Render, Call.Update 16000000, Call.Render,
          Call.Update 16000000, Call.Render] := by
  obtain ⟨st1, h1, _, h3, _⟩ := c1_idle_loop_ticks demoPlatform demoEngine 3
    ⟨⟨[Call.RegisterClassExW, Call.CreateWindowExW 92 60 816 679 7, Call.SetWindowLongPtr 7,
        Call.Init 1 ⟨800, 640⟩, Call.ShowWindow], 7, true, [], none, 1⟩, ⟨0, 0, 0, 0⟩, 0, 0⟩
    rfl rfl rfl (fun _ _ => ⟨rfl, rfl⟩)
  exact ⟨st1, h1, by rw [h3]; decide⟩

/-- C3, evaluated: nothing reads the clock before the loop, so the first Update receives the
whole time since the clock epoch.  With a first reading of 5 s the first delta is 5 s, while
the second, one 16 ms frame later, is 0.016 s. -/
theorem c3_first_delta_is_time_since_epoch :
    (Application.Run demoPlatform demoEngine 2).trace.filter Call.isUpdate
        = [Call.Update 5000000000, Call.Update 16000000] ∧
    secondsOfNanos 5000000000 = 5 ∧
    (∃ st, Application.setup demoPlatform demoEngine = .ok st ∧ st.mPreviousFrameTime = 0) :=
  ⟨by decide, by norm_num [secondsOfNanos], ⟨_, rfl, rfl⟩⟩

/-! ## Exit status -/

theorem messageLoop_exit (P : Platform) (E : Engine) (m : Nat) (s : LoopState)
    (h : s.message.message = WM_QUIT) :
    Application.messageLoop P E m s = .returned (toInt32 s.message.wParam) s.sys.trace := by
  cases m with
  | zero => rw [messageLoop_zero]; simp [h]
  | succ m => rw [messageLoop_succ]; simp [h]

theorem loopBody_of_returns (P : Platform) (E : Engine) (s : LoopState)
    (hu : E.Update s.frame = none) (hr : E.Render s.frame = none) :
    Application.loopBody P E s =
      .ok ⟨((Application.pumpMessage P E s.sys s.message).1.log
              (Call.Update ((P.now s.frame : Int) - s.mPreviousFrameTime))).log Call.Render,
           (Application.pumpMessage P E s.sys s.message).2, (P.now s.frame : Int),
           s.frame + 1⟩ := by
  simp [Application.loopBody, hu, hr]

theorem messageLoop_running_cond (P : Platform) (E : Engine) (n : Nat) (s0 st : LoopState)
    (h : Application.messageLoop P E n s0 = .running st) : st.message.message ≠ WM_QUIT := by
  have := messageLoop_induction P E (fun _ => True)
    (fun r => ∀ st, r = .running st → st.message.message ≠ WM_QUIT)
    (fun _ _ _ _ _ => trivial)
    (fun _ e _ _ _ st1 h1 => absurd h1 (catchHandler_not_running e st1))
    (fun _ _ _ st1 h1 => by cases h1)
    (fun s _ hc st1 h1 => by injection h1 with h1; subst h1; exact hc)
    n s0 trivial
  exact this st h

theorem Run_running_cond (P : Platform) (E : Engine) (n : Nat) (st : LoopState)
    (h : Application.Run P E n = .running st) : st.message.message ≠ WM_QUIT := by
  unfold Application.Run at h
  cases hs : Application.setup P E with
  | error e => rw [hs] at h; exact absurd h (catchHandler_not_running e st)
  | ok s0 => rw [hs] at h; exact messageLoop_running_cond P E n s0 st h

theorem toInt32_wParamOfExitCode (c : Int) (hlo : -2147483648 ≤ c) (hhi : c < 2147483648) :
    toInt32 (wParamOfExitCode c) = c := by
  unfold toInt32 wParamOfExitCode
  split_ifs with h <;> omega

theorem WindowProc_destroy (env : WndEnv) (wParam lParam : Nat) (h : env.imguiResult = 0) :
    Application.WindowProc env WM_DESTROY wParam lParam = (0, [Call.PostQuitMessage 0]) := by
  simp [Application.WindowProc, h, WM_DESTROY, WM_CREATE, WM_KEYDOWN, WM_KEYUP, WM_SIZE]

/-- A `WM_DESTROY` delivered to the live window and not consumed by the overlay records the
quit request with exit code 0 and changes nothing else but the trace and the call count. -/
theorem sendMessage_destroy (P : Platform) (E : Engine) (s : Sys) (wParam lParam : Nat)
    (halive : s.alive = true) (hov : P.imgui s.calls WM_DESTROY wParam lParam = 0) :
    sendMessage P E s WM_DESTROY wParam lParam =
      { s with trace := s.trace ++ [Call.PostQuitMessage 0], quit := some 0,
               calls := s.calls + 1 } := by
  unfold sendMessage
  rw [if_pos halive, WindowProc_destroy _ _ _ (by simpa [Platform.wndEnv] using hov)]
  simp [applyEffect, applyInner, Sys.log]

/-- C5: `Run` returns -1 when window-class registration fails, when window creation fails, when
engine `Init` raises a `std::exception`, and when the loop body does; in the first two cases
the user has been notified and no `Init`, `Update` or `Render` call was made.  Every other
return is the `int32_t` value of the `wParam` of a drained quit signal.  The quit signal that
results from the Destroyed handling carries exit code 0, so that status is 0, which is not -1;
the `int32_t` conversion gives back any exit code passed to `PostQuitMessage`; and a quit
signal at the head of the queue of a running loop makes `Run` return its payload after that
iteration. -/
theorem c5_exit_status (P : Platform) (E : Engine) :
    (P.registerClassResult = 0 → ∀ fuel, ∃ tr, Application.Run P E fuel = .returned (-1) tr ∧
      Call.MessageBoxW ∈ tr ∧ ∀ c ∈ tr, c.isLifecycle = false) ∧
    (P.registerClassResult ≠ 0 → P.createdHandle = 0 → ∀ fuel, ∃ tr,
      Application.Run P E fuel = .returned (-1) tr ∧
      Call.MessageBoxW ∈ tr ∧ ∀ c ∈ tr, c.isLifecycle = false) ∧
    (P.registerClassResult ≠ 0 → P.createdHandle ≠ 0 → E.Init = some Thrown.stdException →
      ∀ fuel, ∃ tr, Application.Run P E fuel = .returned (-1) tr) ∧
    (∀ n st tr, Application.Run P E n = .running st →
      Application.loopBody P E st = .error (Thrown.stdException, tr) →
      Application.Run P E (n + 1) = .returned (-1) tr) ∧
    (∀ fuel status tr, Application.Run P E fuel = .returned status tr →
      (status = -1 ∧ (P.registerClassResult = 0 ∨ P.createdHandle = 0 ∨
          E.Init = some Thrown.stdException ∨
          ∃ i, E.Update i = some Thrown.stdException ∨ E.Render i = some Thrown.stdException)) ∨
      (∃ q, q.message = WM_QUIT ∧ Call.Drained q ∈ tr ∧ status = toInt32 q.wParam)) ∧
    (∀ (s : Sys) (wParam lParam : Nat), s.alive = true →
      P.imgui s.calls WM_DESTROY wParam lParam = 0 → s.queue = [] →
      (PeekMessageW (sendMessage P E s WM_DESTROY wParam lParam)).1
          = some ⟨0, WM_QUIT, 0, 0⟩ ∧
        toInt32 (0 : Nat) = 0 ∧ toInt32 (0 : Nat) ≠ -1) ∧
    (∀ c : Int, -2147483648 ≤ c → c < 2147483648 → toInt32 (wParamOfExitCode c) = c) ∧
    (∀ (n : Nat) (st : LoopState) (q : MSG) (rest : List MSG),
      Application.Run P E n = .running st → st.sys.queue = q :: rest → q.message = WM_QUIT →
      E.Update st.frame = none → E.Render st.frame = none →
      ∃ tr, Application.Run P E (n + 1) = .returned (toInt32 q.wParam) tr ∧
        Call.Drained q ∈ tr) := by
  refine ⟨?_, ?_, ?_, ?_, ?_, ?_, toInt32_wParamOfExitCode, ?_⟩
  · intro hreg fuel
    rcases setup_cases P E with ⟨_, h1⟩ | ⟨hne, _⟩
    · refine ⟨[Call.RegisterClassExW, Call.MessageBoxW], ?_, by decide, by decide⟩
      simp [Application.Run, h1, Application.catchHandler]
    · exact absurd hreg hne
  · intro hreg hh fuel
    cases hs : Application.setup P E with
    | ok st =>
      rcases setup_cases P E with ⟨h0, _⟩ | ⟨_, _, _, ⟨_, h1⟩ | ⟨h0, _⟩ | ⟨h0, _⟩⟩
      · exact absurd h0 hreg
      · rw [h1] at hs; cases hs
      · exact absurd hh h0
      · exact absurd hh h0
    | error e =>
      rcases e with ⟨t, tr⟩
      rcases (setup_error P E t tr hs).2 with ⟨_, ht, hbox, hlife⟩ | ⟨_, h0, _⟩
      · subst ht
        exact ⟨tr, by simp [Application.Run, hs, Application.catchHandler], hbox, hlife⟩
      · exact absurd hh h0
  · intro hreg hh hi fuel
    rcases setup_cases P E with ⟨h0, _⟩ | ⟨_, _, _, ⟨h0, _⟩ | ⟨_, t, ht, h1⟩ | ⟨_, h0, _⟩⟩
    · exact absurd h0 hreg
    · exact absurd h0 hh
    · rw [hi] at ht
      injection ht with ht
      subst ht
      unfold Application.Run
      rw [h1]
      exact ⟨_, rfl⟩
    · rw [hi] at h0; cases h0
  · intro n st tr hrun hbody
    rw [Run_add P E n 1 st hrun, messageLoop_succ, if_pos (Run_running_cond P E n st hrun), hbody]
    rfl
  · intro fuel
    apply Run_induction P E
      (fun s => s.message.message = WM_QUIT → Call.Drained s.message ∈ s.sys.trace)
      (fun r => ∀ status tr, r = .returned status tr →
        (status = -1 ∧ (P.registerClassResult = 0 ∨ P.createdHandle = 0 ∨
            E.Init = some Thrown.stdException ∨
            ∃ i, E.Update i = some Thrown.stdException ∨
              E.Render i = some Thrown.stdException)) ∨
        (∃ q, q.message = WM_QUIT ∧ Call.Drained q ∈ tr ∧ status = toInt32 q.wParam))
    · rintro ⟨t, tr⟩ hs status tr1 hr
      obtain ⟨ht, hst, _⟩ := catchHandler_returned t tr tr1 status hr
      left
      refine ⟨hst, ?_⟩
      rcases (setup_error P E t tr hs).2 with ⟨h0 | h0, _⟩ | ⟨_, _, hi⟩
      · exact Or.inl h0
      · exact Or.inr (Or.inl h0)
      · rw [ht] at hi; exact Or.inr (Or.inr (Or.inl hi))
    · intro st hs hq
      rw [(setup_ok P E st hs).2.1] at hq
      exact absurd hq (by decide)
    · intro s s1 _ hc hb hq
      obtain ⟨pre, _, hshape, hcases⟩ := loopBody_spec P E s
      rcases hcases with ⟨t, _, he⟩ | ⟨t, _, _, he⟩ | ⟨s2, _, _, hok, htr2, hmsg, _⟩
      · rw [he] at hb; cases hb
      · rw [he] at hb; cases hb
      · rw [hok] at hb
        have : s2 = s1 := by injection hb
        subst this
        rcases hshape with ⟨_, h⟩ | ⟨ext, h, _⟩
        · rw [hmsg, h] at hq; exact absurd hq hc
        · rw [htr2, h, hmsg]; simp
    · intro s e _ _ hb status tr1 hr
      obtain ⟨pre, _, _, hcases⟩ := loopBody_spec P E s
      rcases e with ⟨t, tr⟩
      obtain ⟨ht, hst, _⟩ := catchHandler_returned t tr tr1 status hr
      left
      refine ⟨hst, Or.inr (Or.inr (Or.inr ⟨s.frame, ?_⟩))⟩
      rcases hcases with ⟨t1, hu, he⟩ | ⟨t1, _, hrd, he⟩ | ⟨s2, _, _, hok, _⟩
      · rw [he] at hb
        injection hb with hb
        injection hb with hb1 _
        rw [hb1, ht] at hu
        exact Or.inl hu
      · rw [he] at hb
        injection hb with hb
        injection hb with hb1 _
        rw [hb1, ht] at hrd
        exact Or.inr hrd
      · rw [hok] at hb; cases hb
    · intro s hinv hq status tr hr
      injection hr with hst htr
      right
      exact ⟨s.message, hq, by rw [← htr]; exact hinv hq, hst.symm⟩
    · intro s _ _ status tr hr
      cases hr
  · intro s wParam lParam halive hov hq
    refine ⟨?_, by decide, by decide⟩
    rw [sendMessage_destroy P E s wParam lParam halive hov]
    simp only [PeekMessageW, hq]
    rfl

  · intro n st q rest hrun hq hquit hu hr
    have hcond := Run_running_cond P E n st hrun
    have hpeek : (PeekMessageW st.sys).1 = some q := by simp [PeekMessageW, hq]
    rcases pumpMessage_spec P E st.sys st.message with ⟨h0, _⟩ | ⟨m, ext, hm, hm2, htr, _⟩
    · rw [hpeek] at h0; cases h0
    · rw [hpeek] at hm
      injection hm with hm
      subst hm
      rw [Run_add P E n 1 st hrun, messageLoop_succ, if_pos hcond,
        loopBody_of_returns P E st hu hr]
      simp only
      rw [messageLoop_exit P E 0 _ (by simp only [hm2]; exact hquit)]
      simp only [hm2]
      refine ⟨_, rfl, ?_⟩
      simp [Sys.log, htr]

/-- C5 at concrete runs: registration failure gives -1 without any engine call; the Escape key
on the demo platform gives the exit code 0 of the quit signal. -/
theorem c5_exit_status_witness :
    (∃ tr, Application.Run { demoPlatform with registerClassResult := 0 } demoEngine 4
        = .returned (-1) tr ∧ Call.MessageBoxW ∈ tr ∧ ∀ c ∈ tr, c.isLifecycle = false) ∧
    (∃ tr, Application.Run escapePlatform demoEngine 2 = .returned 0 tr) :=
  ⟨(c5_exit_status { demoPlatform with registerClassResult := 0 } demoEngine).1 rfl 4,
    ⟨escapeTrace, by decide⟩⟩

/-! ## Sizing and placement -/

end nether.core
